import Mathlib

/-
Verification of the anylist_notify state-reconciliation engine.

The Rust sources are embedded shallowly:
  - src/sync/diff.rs      -> namespace Diff (pure diff engine)
  - src/cache/models.rs   -> namespace Cache (record types)
  - src/cache/sqlite.rs   -> namespace Cache (store operations; the sqlite
                             tables are modelled as lists of rows, upserts as
                             insert-or-replace by primary key)
  - src/sync/handler.rs   -> namespace Handler (per-list reconciliation,
                             self-change filtering, deleted-list sweep)
  - src/main.rs           -> namespace Orchestration (event callback spawning)

Machine integers (i64 timestamps) are modelled as Int; overflow is irrelevant
to every property below. Clock reads (Utc::now) are modelled by an explicit
`now : Int` parameter. Notification dispatch is modelled by a Boolean oracle
saying which dispatches succeed, mirroring the fact that the handler only
logs a dispatch failure and continues.
-/

/-- Item as delivered by the remote list source (anylist_rs::ListItem), with
exactly the fields this repository reads; see the constructions in
src/sync/diff.rs (tests) and src/cache/models.rs (From impl). -/
structure ListItem where
  id : String
  list_id : String
  name : String
  details : String
  quantity : Option String
  category : Option String
  is_checked : Bool
  user_id : Option String
deriving DecidableEq

/-- A remote list (anylist_rs::List) with the fields the embedded code paths
read: id, name and the fetched items. -/
structure RemoteList where
  id : String
  name : String
  items : List ListItem
deriving DecidableEq

namespace Diff

/-- Cached item record as consumed by src/sync/diff.rs: detect_changes reads
the user_id field of cached items and the diff tests construct DbItem with
user_id and last_seen. Note that the declaration in src/cache/models.rs and
the sqlite items table lack the user_id column; the persistence theorems
below are about that gap. -/
structure DbItem where
  id : String
  list_id : String
  name : String
  details : String
  quantity : Option String
  category : Option String
  is_checked : Bool
  user_id : Option String
  last_seen : Int
deriving DecidableEq

/-- Information about a list item (src/sync/diff.rs, struct ItemInfo). -/
structure ItemInfo where
  id : String
  name : String
  details : String
  quantity : Option String
  category : Option String
  user_id : Option String
deriving DecidableEq

/-- Represents a change to a specific field (src/sync/diff.rs, enum FieldChange). -/
inductive FieldChange where
  | Name (old new : String)
  | Details (old new : String)
  | Quantity (old new : Option String)
  | Category (old new : Option String)
deriving DecidableEq

/-- Represents a change detected between cached and current list state
(src/sync/diff.rs, enum ListChange). -/
inductive ListChange where
  | ItemAdded (list_id list_name : String) (item : ItemInfo) (user_id : Option String)
  | ItemRemoved (list_id list_name item_name : String) (user_id : Option String)
  | ItemChecked (list_id list_name item_name : String) (user_id : Option String)
  | ItemUnchecked (list_id list_name item_name : String) (user_id : Option String)
  | ItemModified (list_id list_name item_name : String) (changes : List FieldChange)
      (user_id : Option String)
deriving DecidableEq

/-- ItemInfo::from_list_item (src/sync/diff.rs lines 67-76). -/
def ItemInfo.from_list_item (item : ListItem) : ItemInfo :=
  ⟨item.id, item.name, item.details, item.quantity, item.category, item.user_id⟩

/-- ItemInfo::from_db_item (src/sync/diff.rs lines 78-87). -/
def ItemInfo.from_db_item (item : DbItem) : ItemInfo :=
  ⟨item.id, item.name, item.details, item.quantity, item.category, item.user_id⟩

/-- Lookup in an id-keyed map built by inserting every element of the list in
order, as the HashMap collect in detect_changes does: a later occurrence of an
id overwrites an earlier one. -/
def lookupById {α : Type} (getId : α → String) (items : List α) (id : String) : Option α :=
  items.foldl (fun acc item => if getId item = id then some item else acc) none

/-- The cached_map lookup of detect_changes (src/sync/diff.rs lines 100-101). -/
def cachedLookup (cached_items : List DbItem) (id : String) : Option DbItem :=
  lookupById DbItem.id cached_items id

/-- The current_map lookup of detect_changes (src/sync/diff.rs lines 102-103). -/
def currentLookup (current_items : List ListItem) (id : String) : Option ListItem :=
  lookupById ListItem.id current_items id

/-- detect_field_changes (src/sync/diff.rs lines 169-201): compares the four
value fields in order name, details, quantity, category and pushes one
FieldChange for each field that differs. -/
def detect_field_changes (cached : DbItem) (current : ListItem) : List FieldChange :=
  (if cached.name ≠ current.name then
    [FieldChange.Name cached.name current.name] else []) ++
  (if cached.details ≠ current.details then
    [FieldChange.Details cached.details current.details] else []) ++
  (if cached.quantity ≠ current.quantity then
    [FieldChange.Quantity cached.quantity current.quantity] else []) ++
  (if cached.category ≠ current.category then
    [FieldChange.Category cached.category current.category] else [])

/-- Body of the third loop of detect_changes (src/sync/diff.rs lines 131-162),
run for a current item whose id was found in the cached map: first the
checked-state transition, then the collected field modifications. -/
def pairEvents (list_id list_name : String) (cached_item : DbItem)
    (current_item : ListItem) : List ListChange :=
  (if cached_item.is_checked ≠ current_item.is_checked then
    (if current_item.is_checked then
      [ListChange.ItemChecked list_id list_name current_item.name current_item.user_id]
    else
      [ListChange.ItemUnchecked list_id list_name current_item.name current_item.user_id])
  else []) ++
  (if detect_field_changes cached_item current_item = [] then []
   else
    [ListChange.ItemModified list_id list_name current_item.name
      (detect_field_changes cached_item current_item) current_item.user_id])

/-- detect_changes (src/sync/diff.rs lines 91-166): added items, then removed
items, then per matched id the checked transition and field modifications,
in the order the three source loops push them. -/
def detect_changes (list_id list_name : String) (cached_items : List DbItem)
    (current_items : List ListItem) : List ListChange :=
  (current_items.filterMap fun current_item =>
    if (cachedLookup cached_items current_item.id).isNone then
      some (ListChange.ItemAdded list_id list_name
        (ItemInfo.from_list_item current_item) current_item.user_id)
    else none) ++
  (cached_items.filterMap fun cached_item =>
    if (currentLookup current_items cached_item.id).isNone then
      some (ListChange.ItemRemoved list_id list_name cached_item.name cached_item.user_id)
    else none) ++
  (current_items.flatMap fun current_item =>
    match cachedLookup cached_items current_item.id with
    | some cached_item => pairEvents list_id list_name cached_item current_item
    | none => [])

/-- Recognizer for the ItemAdded variant. -/
def ListChange.isAddedEvent : ListChange → Bool
  | .ItemAdded _ _ _ _ => true
  | _ => false

/-- Recognizer for the ItemRemoved variant. -/
def ListChange.isRemovedEvent : ListChange → Bool
  | .ItemRemoved _ _ _ _ => true
  | _ => false

/-- Recognizer for the ItemChecked variant. -/
def ListChange.isCheckedEvent : ListChange → Bool
  | .ItemChecked _ _ _ _ => true
  | _ => false

/-- Recognizer for the ItemUnchecked variant. -/
def ListChange.isUncheckedEvent : ListChange → Bool
  | .ItemUnchecked _ _ _ _ => true
  | _ => false

/-- Recognizer for the ItemModified variant. -/
def ListChange.isModifiedEvent : ListChange → Bool
  | .ItemModified _ _ _ _ _ => true
  | _ => false

/-- Attributing user id carried by a change event, as extracted by the match
in filter_own_changes (src/sync/handler.rs lines 210-216). -/
def ListChange.userId : ListChange → Option String
  | .ItemAdded _ _ _ user_id => user_id
  | .ItemRemoved _ _ _ user_id => user_id
  | .ItemChecked _ _ _ user_id => user_id
  | .ItemUnchecked _ _ _ user_id => user_id
  | .ItemModified _ _ _ _ user_id => user_id

/-- Item name reported by a change event (for ItemAdded, the name inside the
carried ItemInfo). -/
def ListChange.eventName : ListChange → String
  | .ItemAdded _ _ item _ => item.name
  | .ItemRemoved _ _ item_name _ => item_name
  | .ItemChecked _ _ item_name _ => item_name
  | .ItemUnchecked _ _ item_name _ => item_name
  | .ItemModified _ _ item_name _ _ => item_name

/-- Position of the field a FieldChange concerns in the comparison order of
detect_field_changes: name, details, quantity, category. -/
def FieldChange.kindIndex : FieldChange → Nat
  | .Name _ _ => 0
  | .Details _ _ => 1
  | .Quantity _ _ => 2
  | .Category _ _ => 3

/-- A cached record and a live item that agree on the id and on every field
the diff engine compares (name, details, quantity, category, checked flag). -/
def ItemMatches (cached : DbItem) (current : ListItem) : Prop :=
  cached.id = current.id ∧ cached.name = current.name ∧
  cached.details = current.details ∧ cached.quantity = current.quantity ∧
  cached.category = current.category ∧ cached.is_checked = current.is_checked

instance (cached : DbItem) (current : ListItem) : Decidable (ItemMatches cached current) := by
  unfold ItemMatches
  infer_instance

end Diff

namespace Cache

/-- Database representation of a shopping list (src/cache/models.rs, DbList). -/
structure DbList where
  id : String
  name : String
  last_updated : Int
deriving DecidableEq

/-- Database representation of a list item (src/cache/models.rs, DbItem):
these are exactly the columns of the sqlite items table created in
run_migrations (src/cache/sqlite.rs lines 69-86); there is no user_id
column. -/
structure DbItem where
  id : String
  list_id : String
  name : String
  details : String
  quantity : Option String
  category : Option String
  is_checked : Bool
  last_seen : Int
deriving DecidableEq

/-- DbList::new (src/cache/models.rs lines 26-32); the Utc::now clock read is
the explicit now argument. -/
def DbList.new (id name : String) (now : Int) : DbList :=
  ⟨id, name, now⟩

/-- DbItem::new (src/cache/models.rs lines 40-59). -/
def DbItem.new (id list_id name details : String) (quantity category : Option String)
    (is_checked : Bool) (now : Int) : DbItem :=
  ⟨id, list_id, name, details, quantity, category, is_checked, now⟩

/-- Conversion of a remote item to a DbItem (src/cache/models.rs lines 67-79):
the user id of the remote item is not among the arguments DbItem::new
receives, so attribution is dropped at this point. -/
def DbItem.fromListItem (item : ListItem) (now : Int) : DbItem :=
  DbItem.new item.id item.list_id item.name item.details item.quantity item.category
    item.is_checked now

/-- Conversion of a remote list to a DbList (src/cache/models.rs lines 82-86). -/
def DbList.fromRemoteList (list : RemoteList) (now : Int) : DbList :=
  DbList.new list.id list.name now

/-- The persistent mirror: the two sqlite tables created by run_migrations
(src/cache/sqlite.rs lines 51-100), each modelled as its list of rows. -/
structure Store where
  lists : List DbList
  items : List DbItem
deriving DecidableEq

/-- upsert_list (src/cache/sqlite.rs lines 141-160): INSERT with
ON CONFLICT(id) DO UPDATE SET of every column, so a row that already carries
the primary key has all of its fields overwritten, and otherwise the new row
is inserted. -/
def upsert_list (list : DbList) (st : Store) : Store :=
  if st.lists.any (fun row => row.id = list.id) then
    { st with lists := st.lists.map (fun row => if row.id = list.id then list else row) }
  else
    { st with lists := st.lists ++ [list] }

/-- upsert_item (src/cache/sqlite.rs lines 163-192): the INSERT binds the
columns id, list_id, name, details, quantity, category, is_checked and
last_seen, and ON CONFLICT(id) overwrites all of them. -/
def upsert_item (item : DbItem) (st : Store) : Store :=
  if st.items.any (fun row => row.id = item.id) then
    { st with items := st.items.map (fun row => if row.id = item.id then item else row) }
  else
    { st with items := st.items ++ [item] }

/-- get_items (src/cache/sqlite.rs lines 116-126): every item row whose
list_id column matches. -/
def get_items (st : Store) (list_id : String) : List DbItem :=
  st.items.filter (fun row => row.list_id = list_id)

/-- get_all_lists (src/cache/sqlite.rs lines 129-138): every list row,
ORDER BY name. -/
def get_all_lists (st : Store) : List DbList :=
  st.lists.mergeSort (fun a b => decide (a.name ≤ b.name))

/-- sync_list (src/cache/sqlite.rs lines 196-207): upsert the list row, then
upsert every item of the snapshot in order. -/
def sync_list (list : RemoteList) (now : Int) (st : Store) : Store :=
  list.items.foldl (fun acc item => upsert_item (DbItem.fromListItem item now) acc)
    (upsert_list (DbList.fromRemoteList list now) st)

/-- delete_list (src/cache/sqlite.rs lines 242-253): DELETE FROM lists by id;
the FOREIGN KEY with ON DELETE CASCADE on the items table removes every item
row owned by the list in the same statement, so list row and item rows vanish
together. -/
def delete_list (list_id : String) (st : Store) : Store :=
  { lists := st.lists.filter (fun row => row.id ≠ list_id),
    items := st.items.filter (fun row => row.list_id ≠ list_id) }

end Cache

namespace Handler

/-- Cached row handed to the diff engine by process_list_changes. The items
table read back by get_items has no user_id column, so a stored row
determines no attribution (see the persistence theorem below); every other
field is passed through unchanged. -/
def toDiffItem (row : Cache.DbItem) : Diff.DbItem :=
  ⟨row.id, row.list_id, row.name, row.details, row.quantity, row.category,
    row.is_checked, none, row.last_seen⟩

/-- filter_own_changes (src/sync/handler.rs lines 206-228): keep a change
when its attributing user id differs from the authenticated user; a change
with no user id is always kept. -/
def filter_own_changes (authenticated_user_id : String)
    (changes : List Diff.ListChange) : List Diff.ListChange :=
  changes.filter fun change =>
    match Diff.ListChange.userId change with
    | some id => id ≠ authenticated_user_id
    | none => true

/-- Changes computed and filtered by process_list_changes before its dispatch
loop (src/sync/handler.rs lines 149-175): read the cached items of the list,
run detect_changes, then apply filter_own_changes when the
notifications.filter_own_changes toggle is set. -/
def pipeline_changes (filter_own : Bool) (authenticated_user_id : String)
    (current_list : RemoteList) (st : Cache.Store) : List Diff.ListChange :=
  let cached_items := Cache.get_items st current_list.id
  let changes := Diff.detect_changes current_list.id current_list.name
    (cached_items.map toDiffItem) current_list.items
  if filter_own then filter_own_changes authenticated_user_id changes else changes

/-- process_list_changes (src/sync/handler.rs lines 146-203). The dispatch
oracle records which notifier.notify calls succeed; the source loop only logs
a failed dispatch and proceeds to the next change, and sync_list runs after
the loop whether or not any dispatch failed. The result pairs every dispatch
attempt with its outcome and gives the store after the final sync_list. -/
def process_list_changes (dispatch : Diff.ListChange → Bool) (filter_own : Bool)
    (authenticated_user_id : String) (now : Int) (current_list : RemoteList)
    (st : Cache.Store) : List (Diff.ListChange × Bool) × Cache.Store :=
  let changes := pipeline_changes filter_own authenticated_user_id current_list st
  (changes.map (fun change => (change, dispatch change)),
    Cache.sync_list current_list now st)

/-- Loop of detect_deleted_lists (src/sync/handler.rs lines 241-252) folded
over the cached lists read at the start of the sweep: a cached list whose id
is not among the fetched ids is deleted from the store. -/
def sweep (current_ids : List String) (cached_lists : List Cache.DbList)
    (st : Cache.Store) : Cache.Store :=
  cached_lists.foldl
    (fun acc cached_list =>
      if current_ids.contains cached_list.id then acc
      else Cache.delete_list cached_list.id acc)
    st

/-- detect_deleted_lists (src/sync/handler.rs lines 231-255): read all cached
lists, collect the ids of the fetched lists, and delete every cached list
whose id is absent from the fetch. -/
def detect_deleted_lists (current_lists : List RemoteList) (st : Cache.Store) : Cache.Store :=
  sweep (current_lists.map RemoteList.id) (Cache.get_all_lists st) st

/-- handle_shopping_lists_changed (src/sync/handler.rs lines 89-115), store
effect: process each fetched list in order (each call ends in sync_list),
then run the deleted-list sweep. -/
def handle_shopping_lists_changed (dispatch : Diff.ListChange → Bool) (filter_own : Bool)
    (authenticated_user_id : String) (now : Int) (current_lists : List RemoteList)
    (st : Cache.Store) : Cache.Store :=
  detect_deleted_lists current_lists
    (current_lists.foldl
      (fun acc current_list =>
        (process_list_changes dispatch filter_own authenticated_user_id now
          current_list acc).2)
      st)

end Handler

namespace Orchestration

/-- Sync events delivered by the realtime transport, as matched by
handle_event (src/sync/handler.rs lines 72-86). -/
inductive SyncEvent where
  | ShoppingListsChanged
  | Heartbeat
deriving DecidableEq

/-- Reconciliation tasks spawned by the websocket callback and not yet
completed. -/
structure SpawnState where
  in_flight : List SyncEvent
deriving DecidableEq

/-- event_callback (src/main.rs lines 71-78): each incoming event
tokio-spawns a fresh handle_event task and returns immediately; the callback
neither awaits running tasks nor takes any lock or queue, so a new
reconciliation cycle starts no matter how many are already in flight. -/
def event_callback (st : SpawnState) (event : SyncEvent) : SpawnState :=
  ⟨st.in_flight ++ [event]⟩

end Orchestration

/-
Helper lemmas. None of these is a claim theorem; the claim theorems at the
end of the file are assembled from them.
-/

namespace Diff

theorem foldl_lookup_eq {α : Type} (q : α → Prop) [DecidablePred q] :
    ∀ (l : List α) (acc : Option α),
      l.foldl (fun acc a => if q a then some a else acc) acc
        = (l.reverse.find? fun a => decide (q a)).or acc := by
  intro l
  induction l with
  | nil => intro acc; rfl
  | cons a l ih =>
    intro acc
    rw [List.foldl_cons, ih, List.reverse_cons, List.find?_append]
    cases hx : l.reverse.find? fun a => decide (q a) with
    | some x => rfl
    | none =>
      simp only [Option.none_or]
      by_cases hp : q a
      · simp [List.find?, hp]
      · simp [List.find?, hp]

theorem lookupById_eq {α : Type} (getId : α → String) (items : List α) (id : String) :
    lookupById getId items id = items.reverse.find? (fun a => getId a = id) := by
  unfold lookupById
  rw [foldl_lookup_eq]
  exact Option.or_none

theorem lookupById_eq_none_iff {α : Type} (getId : α → String) (items : List α) (id : String) :
    lookupById getId items id = none ↔ ∀ a ∈ items, getId a ≠ id := by
  rw [lookupById_eq, List.find?_eq_none]
  constructor
  · intro h a ha
    have := h a (List.mem_reverse.mpr ha)
    simpa using this
  · intro h a ha
    have := h a (List.mem_reverse.mp ha)
    simpa using this

theorem lookupById_eq_some {α : Type} {getId : α → String} {items : List α} {id : String}
    {a : α} (h : lookupById getId items id = some a) : a ∈ items ∧ getId a = id := by
  rw [lookupById_eq] at h
  refine ⟨List.mem_reverse.mp (List.mem_of_find?_eq_some h), ?_⟩
  have := List.find?_some h
  simpa using this

theorem lookupById_isSome {α : Type} {getId : α → String} {items : List α} {id : String}
    {a : α} (ha : a ∈ items) (hid : getId a = id) :
    (lookupById getId items id).isSome := by
  rw [lookupById_eq, List.find?_isSome]
  exact ⟨a, List.mem_reverse.mpr ha, by simp [hid]⟩

theorem lookupById_nodup {α : Type} {getId : α → String} {items : List α} {id : String}
    {a : α} (hnd : (items.map getId).Nodup) (ha : a ∈ items) (hid : getId a = id) :
    lookupById getId items id = some a := by
  obtain ⟨b, hb⟩ := Option.isSome_iff_exists.mp (lookupById_isSome ha hid)
  obtain ⟨hbmem, hbid⟩ := lookupById_eq_some hb
  have hba : b = a := List.inj_on_of_nodup_map hnd hbmem ha (by rw [hbid, hid])
  rw [hb, hba]

theorem filterMap_ite {α β : Type} (p : α → Bool) (f : α → β) :
    ∀ l : List α,
      (l.filterMap fun a => if p a then some (f a) else none) = (l.filter p).map f := by
  intro l
  induction l with
  | nil => rfl
  | cons a l ih => by_cases h : p a <;> simp [List.filterMap_cons, List.filter_cons, h, ih]

theorem sublist_flatMap_of_mem {α β : Type} (f : α → List β) {l : List α} {a : α}
    (h : a ∈ l) : (f a).Sublist (l.flatMap f) := by
  induction l with
  | nil => cases h
  | cons b l ih =>
    rcases List.mem_cons.mp h with rfl | h2
    · rw [List.flatMap_cons]
      exact List.sublist_append_left (f a) (l.flatMap f)
    · refine (ih h2).trans ?_
      rw [List.flatMap_cons]
      exact List.sublist_append_right (f b) (l.flatMap f)

theorem pairEvents_cases {list_id list_name : String} {k : DbItem} {c : ListItem}
    {e : ListChange} (he : e ∈ pairEvents list_id list_name k c) :
    (e = ListChange.ItemChecked list_id list_name c.name c.user_id ∧
      k.is_checked ≠ c.is_checked ∧ c.is_checked = true) ∨
    (e = ListChange.ItemUnchecked list_id list_name c.name c.user_id ∧
      k.is_checked ≠ c.is_checked ∧ c.is_checked = false) ∨
    (e = ListChange.ItemModified list_id list_name c.name (detect_field_changes k c)
        c.user_id ∧ detect_field_changes k c ≠ []) := by
  unfold pairEvents at he
  rcases List.mem_append.mp he with h | h
  · split_ifs at h with h1 h2
    · simp only [List.mem_singleton] at h
      exact Or.inl ⟨h, h1, h2⟩
    · simp only [List.mem_singleton] at h
      exact Or.inr (Or.inl ⟨h, h1, by simpa using h2⟩)
    · cases h
  · split_ifs at h with h1
    · cases h
    · simp only [List.mem_singleton] at h
      exact Or.inr (Or.inr ⟨h, h1⟩)

theorem detect_changes_parts (list_id list_name : String) (cached_items : List DbItem)
    (current_items : List ListItem) :
    detect_changes list_id list_name cached_items current_items =
      ((current_items.filter fun c => (cachedLookup cached_items c.id).isNone).map
        fun c => ListChange.ItemAdded list_id list_name (ItemInfo.from_list_item c)
          c.user_id) ++
      ((cached_items.filter fun k => (currentLookup current_items k.id).isNone).map
        fun k => ListChange.ItemRemoved list_id list_name k.name k.user_id) ++
      (current_items.flatMap fun c =>
        match cachedLookup cached_items c.id with
        | some k => pairEvents list_id list_name k c
        | none => []) := by
  unfold detect_changes
  rw [filterMap_ite, filterMap_ite]

theorem mem_matched_part {list_id list_name : String} {cached_items : List DbItem}
    {current_items : List ListItem} {e : ListChange}
    (he : e ∈ current_items.flatMap fun c =>
      match cachedLookup cached_items c.id with
      | some k => pairEvents list_id list_name k c
      | none => []) :
    ∃ k ∈ cached_items, ∃ c ∈ current_items, k.id = c.id ∧
      e ∈ pairEvents list_id list_name k c := by
  obtain ⟨c, hc, hec⟩ := List.mem_flatMap.mp he
  cases hk : cachedLookup cached_items c.id with
  | none => rw [hk] at hec; cases hec
  | some k =>
    rw [hk] at hec
    obtain ⟨hkmem, hkid⟩ := lookupById_eq_some hk
    exact ⟨k, hkmem, c, hc, hkid, hec⟩

theorem matched_part_not_added {list_id list_name : String} {cached_items : List DbItem}
    {current_items : List ListItem} {e : ListChange}
    (he : e ∈ current_items.flatMap fun c =>
      match cachedLookup cached_items c.id with
      | some k => pairEvents list_id list_name k c
      | none => []) :
    ListChange.isAddedEvent e = false ∧ ListChange.isRemovedEvent e = false := by
  obtain ⟨k, _, c, _, _, hpe⟩ := mem_matched_part he
  rcases pairEvents_cases hpe with ⟨rfl, _⟩ | ⟨rfl, _⟩ | ⟨rfl, _⟩ <;>
    simp [ListChange.isAddedEvent, ListChange.isRemovedEvent]

theorem detect_changes_filter_added (list_id list_name : String)
    (cached_items : List DbItem) (current_items : List ListItem) :
    (detect_changes list_id list_name cached_items current_items).filter
        ListChange.isAddedEvent
      = (current_items.filter fun c => (cachedLookup cached_items c.id).isNone).map
          fun c => ListChange.ItemAdded list_id list_name (ItemInfo.from_list_item c)
            c.user_id := by
  rw [detect_changes_parts, List.filter_append, List.filter_append]
  rw [List.filter_map, List.filter_map]
  have h1 : ((current_items.filter fun c => (cachedLookup cached_items c.id).isNone).filter
      (ListChange.isAddedEvent ∘
        fun c => ListChange.ItemAdded list_id list_name (ItemInfo.from_list_item c)
          c.user_id))
      = current_items.filter fun c => (cachedLookup cached_items c.id).isNone := by
    have : (ListChange.isAddedEvent ∘
        fun (c : ListItem) => ListChange.ItemAdded list_id list_name
          (ItemInfo.from_list_item c) c.user_id) = fun _ => true := by
      funext c; rfl
    rw [this, List.filter_true]
  have h2 : ((cached_items.filter fun k => (currentLookup current_items k.id).isNone).filter
      (ListChange.isAddedEvent ∘
        fun k => ListChange.ItemRemoved list_id list_name k.name k.user_id))
      = [] := by
    have : (ListChange.isAddedEvent ∘
        fun (k : DbItem) => ListChange.ItemRemoved list_id list_name k.name k.user_id)
        = fun _ => false := by
      funext k; rfl
    rw [this, List.filter_false]
  have h3 : ((current_items.flatMap fun c =>
      match cachedLookup cached_items c.id with
      | some k => pairEvents list_id list_name k c
      | none => []).filter ListChange.isAddedEvent) = [] := by
    rw [List.filter_eq_nil_iff]
    intro e he
    have := (matched_part_not_added he).1
    simp [this]
  rw [h1, h2, h3, List.append_nil, List.map_nil, List.append_nil]

theorem detect_changes_filter_removed (list_id list_name : String)
    (cached_items : List DbItem) (current_items : List ListItem) :
    (detect_changes list_id list_name cached_items current_items).filter
        ListChange.isRemovedEvent
      = (cached_items.filter fun k => (currentLookup current_items k.id).isNone).map
          fun k => ListChange.ItemRemoved list_id list_name k.name k.user_id := by
  rw [detect_changes_parts, List.filter_append, List.filter_append]
  rw [List.filter_map, List.filter_map]
  have h1 : ((current_items.filter fun c => (cachedLookup cached_items c.id).isNone).filter
      (ListChange.isRemovedEvent ∘
        fun c => ListChange.ItemAdded list_id list_name (ItemInfo.from_list_item c)
          c.user_id)) = [] := by
    have : (ListChange.isRemovedEvent ∘
        fun (c : ListItem) => ListChange.ItemAdded list_id list_name
          (ItemInfo.from_list_item c) c.user_id) = fun _ => false := by
      funext c; rfl
    rw [this, List.filter_false]
  have h2 : ((cached_items.filter fun k => (currentLookup current_items k.id).isNone).filter
      (ListChange.isRemovedEvent ∘
        fun k => ListChange.ItemRemoved list_id list_name k.name k.user_id))
      = cached_items.filter fun k => (currentLookup current_items k.id).isNone := by
    have : (ListChange.isRemovedEvent ∘
        fun (k : DbItem) => ListChange.ItemRemoved list_id list_name k.name k.user_id)
        = fun _ => true := by
      funext k; rfl
    rw [this, List.filter_true]
  have h3 : ((current_items.flatMap fun c =>
      match cachedLookup cached_items c.id with
      | some k => pairEvents list_id list_name k c
      | none => []).filter ListChange.isRemovedEvent) = [] := by
    rw [List.filter_eq_nil_iff]
    intro e he
    have := (matched_part_not_added he).2
    simp [this]
  rw [h1, h2, h3, List.map_nil, List.nil_append, List.append_nil]

end Diff

theorem forall2_exists_left {α β : Type} {R : α → β → Prop} :
    ∀ {l1 : List α} {l2 : List β}, List.Forall₂ R l1 l2 →
      ∀ b ∈ l2, ∃ a ∈ l1, R a b := by
  intro l1 l2 h
  induction h with
  | nil => intro b hb; cases hb
  | @cons a b l1 l2 hR _ ih =>
    intro x hx
    rcases List.mem_cons.mp hx with rfl | hx2
    · exact ⟨a, List.mem_cons_self a l1, hR⟩
    · obtain ⟨y, hy, hr⟩ := ih x hx2
      exact ⟨y, List.mem_cons_of_mem a hy, hr⟩

theorem forall2_exists_right {α β : Type} {R : α → β → Prop} :
    ∀ {l1 : List α} {l2 : List β}, List.Forall₂ R l1 l2 →
      ∀ a ∈ l1, ∃ b ∈ l2, R a b := by
  intro l1 l2 h
  induction h with
  | nil => intro a ha; cases ha
  | @cons a b l1 l2 hR _ ih =>
    intro x hx
    rcases List.mem_cons.mp hx with rfl | hx2
    · exact ⟨b, List.mem_cons_self b l2, hR⟩
    · obtain ⟨y, hy, hr⟩ := ih x hx2
      exact ⟨y, List.mem_cons_of_mem b hy, hr⟩

namespace Cache

theorem upsert_list_items (list : DbList) (st : Store) :
    (upsert_list list st).items = st.items := by
  unfold upsert_list
  split <;> rfl

theorem upsert_item_lists (item : DbItem) (st : Store) :
    (upsert_item item st).lists = st.lists := by
  unfold upsert_item
  split <;> rfl

theorem upsert_list_frame {list : DbList} {st : Store} {row : DbList}
    (h : row ∈ st.lists) (hne : row.id ≠ list.id) :
    row ∈ (upsert_list list st).lists := by
  unfold upsert_list
  split
  · have := List.mem_map_of_mem (fun r => if r.id = list.id then list else r) h
    simpa [if_neg hne] using this
  · exact List.mem_append.mpr (Or.inl h)

theorem upsert_item_frame {item : DbItem} {st : Store} {row : DbItem}
    (h : row ∈ st.items) (hne : row.id ≠ item.id) :
    row ∈ (upsert_item item st).items := by
  unfold upsert_item
  split
  · have := List.mem_map_of_mem (fun r => if r.id = item.id then item else r) h
    simpa [if_neg hne] using this
  · exact List.mem_append.mpr (Or.inl h)

theorem upsert_list_id_present {list : DbList} {st : Store} {i : String}
    (h : ∃ r ∈ st.lists, r.id = i) :
    ∃ r ∈ (upsert_list list st).lists, r.id = i := by
  obtain ⟨r, hr, hri⟩ := h
  by_cases hx : r.id = list.id
  · refine ⟨list, ?_, by rw [← hx, hri]⟩
    unfold upsert_list
    rw [if_pos ?_]
    · have := List.mem_map_of_mem (fun q => if q.id = list.id then list else q) hr
      simpa [if_pos hx] using this
    · exact List.any_eq_true.mpr ⟨r, hr, by simp [hx]⟩
  · exact ⟨r, upsert_list_frame hr hx, hri⟩

theorem upsert_item_id_present {item : DbItem} {st : Store} {i : String}
    (h : ∃ r ∈ st.items, r.id = i) :
    ∃ r ∈ (upsert_item item st).items, r.id = i := by
  obtain ⟨r, hr, hri⟩ := h
  by_cases hx : r.id = item.id
  · refine ⟨item, ?_, by rw [← hx, hri]⟩
    unfold upsert_item
    rw [if_pos ?_]
    · have := List.mem_map_of_mem (fun q => if q.id = item.id then item else q) hr
      simpa [if_pos hx] using this
    · exact List.any_eq_true.mpr ⟨r, hr, by simp [hx]⟩
  · exact ⟨r, upsert_item_frame hr hx, hri⟩

theorem mem_delete_list_lists {list_id : String} {st : Store} {row : DbList} :
    row ∈ (delete_list list_id st).lists ↔ row ∈ st.lists ∧ row.id ≠ list_id := by
  simp [delete_list]

theorem mem_delete_list_items {list_id : String} {st : Store} {row : DbItem} :
    row ∈ (delete_list list_id st).items ↔ row ∈ st.items ∧ row.list_id ≠ list_id := by
  simp [delete_list]

end Cache

theorem foldl_invariant_mem {α β : Type} (P : α → Prop) (step : α → β → α) :
    ∀ (l : List β), (∀ a b, b ∈ l → P a → P (step a b)) →
      ∀ a, P a → P (l.foldl step a) := by
  intro l
  induction l with
  | nil => intro _ a h; exact h
  | cons b l ih =>
    intro hstep a h
    exact ih (fun a x hx => hstep a x (List.mem_cons_of_mem b hx)) _
      (hstep a b (List.mem_cons_self b l) h)

namespace Cache

theorem sync_list_items_lists (list : RemoteList) (now : Int) (st : Store) :
    (sync_list list now st).lists = (upsert_list (DbList.fromRemoteList list now) st).lists := by
  unfold sync_list
  refine foldl_invariant_mem
    (fun a => a.lists = (upsert_list (DbList.fromRemoteList list now) st).lists)
    (fun acc item => upsert_item (DbItem.fromListItem item now) acc)
    list.items (fun a b _ h => ?_) _ rfl
  show (upsert_item (DbItem.fromListItem b now) a).lists = _
  rw [upsert_item_lists]
  exact h

theorem sync_list_lists_frame {list : RemoteList} {now : Int} {st : Store} {row : DbList}
    (h : row ∈ st.lists) (hne : row.id ≠ list.id) :
    row ∈ (sync_list list now st).lists := by
  rw [sync_list_items_lists]
  exact upsert_list_frame h hne

theorem sync_list_lists_id_present {list : RemoteList} {now : Int} {st : Store}
    {row : DbList} (h : row ∈ st.lists) :
    ∃ r ∈ (sync_list list now st).lists, r.id = row.id := by
  rw [sync_list_items_lists]
  exact upsert_list_id_present ⟨row, h, rfl⟩

theorem sync_list_items_frame {list : RemoteList} {now : Int} {st : Store} {row : DbItem}
    (h : row ∈ st.items) (hne : ∀ snap ∈ list.items, row.id ≠ snap.id) :
    row ∈ (sync_list list now st).items := by
  unfold sync_list
  refine foldl_invariant_mem (fun a => row ∈ a.items)
    (fun acc item => upsert_item (DbItem.fromListItem item now) acc)
    list.items (fun a b hb hmem => upsert_item_frame hmem (hne b hb)) _ ?_
  show row ∈ (upsert_list (DbList.fromRemoteList list now) st).items
  rw [upsert_list_items]
  exact h

theorem sync_list_items_id_present {list : RemoteList} {now : Int} {st : Store}
    {row : DbItem} (h : row ∈ st.items) :
    ∃ r ∈ (sync_list list now st).items, r.id = row.id := by
  unfold sync_list
  refine foldl_invariant_mem (fun a => ∃ r ∈ a.items, r.id = row.id)
    (fun acc item => upsert_item (DbItem.fromListItem item now) acc)
    list.items (fun a b _ hmem => upsert_item_id_present hmem) _ ?_
  show ∃ r ∈ (upsert_list (DbList.fromRemoteList list now) st).items, r.id = row.id
  rw [upsert_list_items]
  exact ⟨row, h, rfl⟩

end Cache

namespace Handler

theorem sweep_cons (current_ids : List String) (cl : Cache.DbList)
    (cls : List Cache.DbList) (st : Cache.Store) :
    sweep current_ids (cl :: cls) st
      = sweep current_ids cls
          (if current_ids.contains cl.id then st else Cache.delete_list cl.id st) := by
  rfl

theorem sweep_lists_subset (current_ids : List String) :
    ∀ (cls : List Cache.DbList) (st : Cache.Store) (row : Cache.DbList),
      row ∈ (sweep current_ids cls st).lists → row ∈ st.lists := by
  intro cls
  induction cls with
  | nil => intro st row h; exact h
  | cons cl cls ih =>
    intro st row h
    rw [sweep_cons] at h
    have h2 := ih _ row h
    by_cases hc : current_ids.contains cl.id
    · rwa [if_pos hc] at h2
    · rw [if_neg hc] at h2
      exact (Cache.mem_delete_list_lists.mp h2).1

theorem sweep_items_subset (current_ids : List String) :
    ∀ (cls : List Cache.DbList) (st : Cache.Store) (row : Cache.DbItem),
      row ∈ (sweep current_ids cls st).items → row ∈ st.items := by
  intro cls
  induction cls with
  | nil => intro st row h; exact h
  | cons cl cls ih =>
    intro st row h
    rw [sweep_cons] at h
    have h2 := ih _ row h
    by_cases hc : current_ids.contains cl.id
    · rwa [if_pos hc] at h2
    · rw [if_neg hc] at h2
      exact (Cache.mem_delete_list_items.mp h2).1

theorem sweep_deletes (current_ids : List String) :
    ∀ (cls : List Cache.DbList) (st : Cache.Store) (cl : Cache.DbList),
      cl ∈ cls → current_ids.contains cl.id = false →
      (∀ row ∈ (sweep current_ids cls st).lists, row.id ≠ cl.id) ∧
      (∀ row ∈ (sweep current_ids cls st).items, row.list_id ≠ cl.id) := by
  intro cls
  induction cls with
  | nil => intro st cl hcl; cases hcl
  | cons a cls ih =>
    intro st cl hcl hnc
    rcases List.mem_cons.mp hcl with rfl | hcl2
    · have hcond : ¬ (current_ids.contains cl.id = true) := by
        rw [hnc]
        exact Bool.false_ne_true
      rw [sweep_cons, if_neg hcond]
      constructor
      · intro row hrow
        have := sweep_lists_subset current_ids cls _ row hrow
        exact (Cache.mem_delete_list_lists.mp this).2
      · intro row hrow
        have := sweep_items_subset current_ids cls _ row hrow
        exact (Cache.mem_delete_list_items.mp this).2
    · rw [sweep_cons]
      exact ih _ cl hcl2 hnc

end Handler

/-
Claim theorems.
-/

/-- C1: the claim fails on the code. The items table created by
run_migrations has no user_id column, DbItem in src/cache/models.rs has no
user_id field, and the INSERT of upsert_item binds none, so the attributing
user id of an item is not persisted: two snapshots whose single item differs
only in the attributing user id are synced to identical stores, hence a read
back through get_items cannot return the written attribution; the row that
is read back carries every other field but no user id. -/
theorem c1_item_attribution_not_persisted :
    ListItem.user_id ⟨"item-1", "list-1", "Milk", "", none, none, false, some "user-1"⟩
      = some "user-1" ∧
    ListItem.user_id ⟨"item-1", "list-1", "Milk", "", none, none, false, none⟩ = none ∧
    Cache.sync_list ⟨"list-1", "Groceries",
        [⟨"item-1", "list-1", "Milk", "", none, none, false, some "user-1"⟩]⟩ 0 ⟨[], []⟩
      = Cache.sync_list ⟨"list-1", "Groceries",
          [⟨"item-1", "list-1", "Milk", "", none, none, false, none⟩]⟩ 0 ⟨[], []⟩ ∧
    Cache.get_items (Cache.sync_list ⟨"list-1", "Groceries",
        [⟨"item-1", "list-1", "Milk", "", none, none, false, some "user-1"⟩]⟩ 0 ⟨[], []⟩)
        "list-1"
      = [⟨"item-1", "list-1", "Milk", "", none, none, false, 0⟩] := by
  refine ⟨rfl, rfl, ?_, ?_⟩ <;> decide

/-- C9: the claim fails on the code. The websocket callback in src/main.rs
tokio-spawns an independent handle_event task for every incoming signal and
never awaits, queues or locks, so two ShoppingListsChanged signals arriving
before the first cycle completes leave two reconciliation cycles in flight
simultaneously, not at most one. -/
theorem c9_overlapping_cycles_spawned :
    (Orchestration.event_callback
        (Orchestration.event_callback ⟨[]⟩ Orchestration.SyncEvent.ShoppingListsChanged)
        Orchestration.SyncEvent.ShoppingListsChanged).in_flight.length = 2 := by
  decide

theorem map_fst_pair {α β : Type} (f : α → β) :
    ∀ l : List α, (l.map fun a => (a, f a)).map Prod.fst = l := by
  intro l
  induction l with
  | nil => rfl
  | cons a l ih => simp [ih]

/-- C6: during per-list reconciliation, the set of dispatch attempts does not
depend on the dispatch outcomes — every change of the filtered diff is
attempted no matter which earlier dispatches failed — and the snapshot is
written to the store via sync_list regardless of the dispatch oracle. -/
theorem c6_dispatch_failure_isolated (dispatch : Diff.ListChange → Bool)
    (filter_own : Bool) (authenticated_user_id : String) (now : Int)
    (current_list : RemoteList) (st : Cache.Store) :
    ((Handler.process_list_changes dispatch filter_own authenticated_user_id now
        current_list st).1.map Prod.fst
      = Handler.pipeline_changes filter_own authenticated_user_id current_list st) ∧
    (Handler.process_list_changes dispatch filter_own authenticated_user_id now
        current_list st).2
      = Cache.sync_list current_list now st := by
  constructor
  · exact map_fst_pair dispatch
      (Handler.pipeline_changes filter_own authenticated_user_id current_list st)
  · rfl

/-- C4: with self-change filtering enabled, no event whose attributing user
id equals the authenticated user survives filter_own_changes, and an event
carrying no attributing user id is kept whether or not the toggle is set. -/
theorem c4_self_filtering (authenticated_user_id : String)
    (changes : List Diff.ListChange) :
    (∀ change ∈ Handler.filter_own_changes authenticated_user_id changes,
        Diff.ListChange.userId change ≠ some authenticated_user_id) ∧
    (∀ change ∈ changes, Diff.ListChange.userId change = none →
        ∀ filter_own : Bool,
          change ∈ (if filter_own then
              Handler.filter_own_changes authenticated_user_id changes
            else changes)) := by
  constructor
  · intro change h hcontra
    simp [Handler.filter_own_changes, List.mem_filter, hcontra] at h
  · intro change hc hnone filter_own
    cases filter_own
    · simpa using hc
    · simp only [if_pos]
      simp [Handler.filter_own_changes, List.mem_filter, hnone, hc]

/-- C4 witness: a concrete unattributed checked event is kept by the enabled
filter. -/
theorem c4_self_filtering_witness :
    Diff.ListChange.ItemChecked "list-1" "Groceries" "Milk" none ∈
      Handler.filter_own_changes "user-1"
        [Diff.ListChange.ItemChecked "list-1" "Groceries" "Milk" none] :=
  (c4_self_filtering "user-1"
      [Diff.ListChange.ItemChecked "list-1" "Groceries" "Milk" none]).2
    (Diff.ListChange.ItemChecked "list-1" "Groceries" "Milk" none)
    (by decide) (by decide) true

/-- C3: the diff emits exactly one ItemAdded per live item whose id is absent
from the cached set, exactly one ItemRemoved — carrying the cached name and
cached attribution — per cached item whose id is absent from the live set,
and every ItemChecked, ItemUnchecked or ItemModified event it emits stems
from an id present in both sets, so no such event concerns a one-sided id. -/
theorem c3_added_removed_events (list_id list_name : String)
    (cached : List Diff.DbItem) (current : List ListItem) :
    ((Diff.detect_changes list_id list_name cached current).filter
        Diff.ListChange.isAddedEvent
      = (current.filter fun c => (Diff.cachedLookup cached c.id).isNone).map
          fun c => Diff.ListChange.ItemAdded list_id list_name
            (Diff.ItemInfo.from_list_item c) c.user_id) ∧
    ((Diff.detect_changes list_id list_name cached current).filter
        Diff.ListChange.isRemovedEvent
      = (cached.filter fun k => (Diff.currentLookup current k.id).isNone).map
          fun k => Diff.ListChange.ItemRemoved list_id list_name k.name k.user_id) ∧
    (∀ e ∈ Diff.detect_changes list_id list_name cached current,
      (Diff.ListChange.isCheckedEvent e = true ∨
        Diff.ListChange.isUncheckedEvent e = true ∨
        Diff.ListChange.isModifiedEvent e = true) →
      ∃ k ∈ cached, ∃ c ∈ current, k.id = c.id ∧
        e ∈ Diff.pairEvents list_id list_name k c) := by
  refine ⟨Diff.detect_changes_filter_added list_id list_name cached current,
    Diff.detect_changes_filter_removed list_id list_name cached current, ?_⟩
  intro e he hkind
  rw [Diff.detect_changes_parts] at he
  rcases List.mem_append.mp he with h | h
  · rcases List.mem_append.mp h with h1 | h2
    · obtain ⟨c, _, rfl⟩ := List.mem_map.mp h1
      rcases hkind with h | h | h <;> simp [Diff.ListChange.isCheckedEvent,
        Diff.ListChange.isUncheckedEvent, Diff.ListChange.isModifiedEvent] at h
    · obtain ⟨k, _, rfl⟩ := List.mem_map.mp h2
      rcases hkind with h | h | h <;> simp [Diff.ListChange.isCheckedEvent,
        Diff.ListChange.isUncheckedEvent, Diff.ListChange.isModifiedEvent] at h
  · exact Diff.mem_matched_part h

/-- C3 witness: a concrete checked event of the diff stems from the matched
pair with its id. -/
theorem c3_added_removed_events_witness :
    ∃ k ∈ [(⟨"item-1", "list-1", "Milk", "", none, none, false, some "u2", 0⟩ :
        Diff.DbItem)],
      ∃ c ∈ [(⟨"item-1", "list-1", "Milk", "", none, none, true, some "u2"⟩ : ListItem)],
        Diff.DbItem.id k = ListItem.id c ∧
          Diff.ListChange.ItemChecked "list-1" "Groceries" "Milk" (some "u2") ∈
            Diff.pairEvents "list-1" "Groceries" k c :=
  (c3_added_removed_events "list-1" "Groceries"
      [⟨"item-1", "list-1", "Milk", "", none, none, false, some "u2", 0⟩]
      [⟨"item-1", "list-1", "Milk", "", none, none, true, some "u2"⟩]).2.2
    (Diff.ListChange.ItemChecked "list-1" "Groceries" "Milk" (some "u2"))
    (by decide) (Or.inl (by decide))

/-- C10: every event produced for a matched pair — ItemChecked, ItemUnchecked
and ItemModified — reports the live item name and the live attribution; when
the name changed, the cached name appears inside the Name field change; only
ItemRemoved reports the cached name and cached attribution. -/
theorem c10_events_report_live_values (list_id list_name : String)
    (cached : List Diff.DbItem) (current : List ListItem)
    (cached_item : Diff.DbItem) (current_item : ListItem) :
    (∀ e ∈ Diff.pairEvents list_id list_name cached_item current_item,
        Diff.ListChange.eventName e = current_item.name ∧
        Diff.ListChange.userId e = current_item.user_id) ∧
    (cached_item.name ≠ current_item.name →
        Diff.FieldChange.Name cached_item.name current_item.name ∈
          Diff.detect_field_changes cached_item current_item) ∧
    ((Diff.detect_changes list_id list_name cached current).filter
        Diff.ListChange.isRemovedEvent
      = (cached.filter fun k => (Diff.currentLookup current k.id).isNone).map
          fun k => Diff.ListChange.ItemRemoved list_id list_name k.name k.user_id) := by
  refine ⟨?_, ?_, Diff.detect_changes_filter_removed list_id list_name cached current⟩
  · intro e he
    rcases Diff.pairEvents_cases he with ⟨rfl, _⟩ | ⟨rfl, _⟩ | ⟨rfl, _⟩ <;>
      exact ⟨rfl, rfl⟩
  · intro hne
    simp [Diff.detect_field_changes, hne]

/-- C10 witness: for a concrete renamed and checked item, the checked event
carries the live name and attribution. -/
theorem c10_events_report_live_values_witness :
    Diff.ListChange.eventName
        (Diff.ListChange.ItemChecked "list-1" "Groceries" "Oat milk" (some "u2"))
      = ListItem.name ⟨"item-1", "list-1", "Oat milk", "", none, none, true, some "u2"⟩ ∧
    Diff.ListChange.userId
        (Diff.ListChange.ItemChecked "list-1" "Groceries" "Oat milk" (some "u2"))
      = ListItem.user_id ⟨"item-1", "list-1", "Oat milk", "", none, none, true, some "u2"⟩ :=
  (c10_events_report_live_values "list-1" "Groceries" [] []
      ⟨"item-1", "list-1", "Milk", "", none, none, false, some "u1", 0⟩
      ⟨"item-1", "list-1", "Oat milk", "", none, none, true, some "u2"⟩).1
    (Diff.ListChange.ItemChecked "list-1" "Groceries" "Oat milk" (some "u2"))
    (by decide)

/-- C8: sync_list deletes nothing — every list row and item row of the store
keeps a row with its id after the call, rows whose ids are not touched by the
snapshot are left exactly as they were, and in particular items of the synced
list that are absent from the snapshot remain. -/
theorem c8_sync_list_deletes_nothing (list : RemoteList) (now : Int)
    (st : Cache.Store) :
    (∀ row ∈ st.lists, ∃ r ∈ (Cache.sync_list list now st).lists,
        Cache.DbList.id r = Cache.DbList.id row) ∧
    (∀ row ∈ st.lists, Cache.DbList.id row ≠ list.id →
        row ∈ (Cache.sync_list list now st).lists) ∧
    (∀ row ∈ st.items, ∃ r ∈ (Cache.sync_list list now st).items,
        Cache.DbItem.id r = Cache.DbItem.id row) ∧
    (∀ row ∈ st.items, (∀ snap ∈ list.items, Cache.DbItem.id row ≠ ListItem.id snap) →
        row ∈ (Cache.sync_list list now st).items) :=
  ⟨fun _ h => Cache.sync_list_lists_id_present h,
   fun _ h hne => Cache.sync_list_lists_frame h hne,
   fun _ h => Cache.sync_list_items_id_present h,
   fun _ h hne => Cache.sync_list_items_frame h hne⟩

/-- C8 witness: a list row and an item row of another list survive a
concrete sync_list unchanged. -/
theorem c8_sync_list_deletes_nothing_witness :
    (⟨"list-B", "Bakery", 5⟩ : Cache.DbList) ∈
      (Cache.sync_list ⟨"list-A", "Groceries",
          [⟨"item-2", "list-A", "Eggs", "", none, none, false, none⟩]⟩ 7
        ⟨[⟨"list-B", "Bakery", 5⟩],
         [⟨"item-1", "list-B", "Milk", "", none, none, false, 5⟩]⟩).lists ∧
    (⟨"item-1", "list-B", "Milk", "", none, none, false, 5⟩ : Cache.DbItem) ∈
      (Cache.sync_list ⟨"list-A", "Groceries",
          [⟨"item-2", "list-A", "Eggs", "", none, none, false, none⟩]⟩ 7
        ⟨[⟨"list-B", "Bakery", 5⟩],
         [⟨"item-1", "list-B", "Milk", "", none, none, false, 5⟩]⟩).items :=
  ⟨(c8_sync_list_deletes_nothing ⟨"list-A", "Groceries",
        [⟨"item-2", "list-A", "Eggs", "", none, none, false, none⟩]⟩ 7
      ⟨[⟨"list-B", "Bakery", 5⟩],
       [⟨"item-1", "list-B", "Milk", "", none, none, false, 5⟩]⟩).2.1
    ⟨"list-B", "Bakery", 5⟩ (by decide) (by decide),
   (c8_sync_list_deletes_nothing ⟨"list-A", "Groceries",
        [⟨"item-2", "list-A", "Eggs", "", none, none, false, none⟩]⟩ 7
      ⟨[⟨"list-B", "Bakery", 5⟩],
       [⟨"item-1", "list-B", "Milk", "", none, none, false, 5⟩]⟩).2.2.2
    ⟨"item-1", "list-B", "Milk", "", none, none, false, 5⟩ (by decide) (by decide)⟩

/-- C5: diffing a cached set against a live set carrying exactly the same
items with identical field values yields no change events at all, for any
list id and name. -/
theorem c5_diff_identical_sets_empty (list_id list_name : String)
    (cached : List Diff.DbItem) (current : List ListItem)
    (hnd : (cached.map Diff.DbItem.id).Nodup)
    (hmatch : List.Forall₂ Diff.ItemMatches cached current) :
    Diff.detect_changes list_id list_name cached current = [] := by
  rw [Diff.detect_changes_parts]
  have hadded : (current.filter fun c => (Diff.cachedLookup cached c.id).isNone) = [] := by
    rw [List.filter_eq_nil_iff]
    intro c hc hN
    obtain ⟨k, hk, hM⟩ := forall2_exists_left hmatch c hc
    have hS := Diff.lookupById_isSome hk hM.1
    rw [Option.isNone_iff_eq_none] at hN
    unfold Diff.cachedLookup at hN
    rw [hN] at hS
    cases hS
  have hremoved : (cached.filter fun k => (Diff.currentLookup current k.id).isNone) = [] := by
    rw [List.filter_eq_nil_iff]
    intro k hk hN
    obtain ⟨c, hc, hM⟩ := forall2_exists_right hmatch k hk
    have hS := Diff.lookupById_isSome hc hM.1.symm
    rw [Option.isNone_iff_eq_none] at hN
    unfold Diff.currentLookup at hN
    rw [hN] at hS
    cases hS
  have hmatched : (current.flatMap fun c =>
      match Diff.cachedLookup cached c.id with
      | some k => Diff.pairEvents list_id list_name k c
      | none => []) = [] := by
    rw [List.flatMap_eq_nil_iff]
    intro c hc
    obtain ⟨k, hk, hM⟩ := forall2_exists_left hmatch c hc
    have hlk : Diff.cachedLookup cached c.id = some k :=
      Diff.lookupById_nodup hnd hk hM.1
    rw [hlk]
    obtain ⟨hid, hname, hdet, hqty, hcat, hchk⟩ := hM
    simp [Diff.pairEvents, Diff.detect_field_changes, hname, hdet, hqty, hcat, hchk]
  rw [hadded, hremoved, hmatched]
  rfl

/-- C5 witness: the diff of a concrete set against itself is empty. -/
theorem c5_diff_identical_sets_empty_witness :
    Diff.detect_changes "list-1" "Groceries"
      [⟨"item-1", "list-1", "Milk", "", some "1 gallon", none, false, some "u2", 3⟩]
      [⟨"item-1", "list-1", "Milk", "", some "1 gallon", none, false, some "u2"⟩] = [] :=
  c5_diff_identical_sets_empty "list-1" "Groceries"
    [⟨"item-1", "list-1", "Milk", "", some "1 gallon", none, false, some "u2", 3⟩]
    [⟨"item-1", "list-1", "Milk", "", some "1 gallon", none, false, some "u2"⟩]
    (by decide)
    (List.Forall₂.cons ⟨rfl, rfl, rfl, rfl, rfl, rfl⟩ List.Forall₂.nil)

/-- C7: after a reconciliation cycle over the fetched lists L, every list the
store still returns through get_all_lists has its id in L, and every cached
list whose id is not in L is gone together with every item row owned by it —
delete_list removes the list row and its item rows in one step, so no orphan
item survives. -/
theorem c7_deleted_list_sweep (dispatch : Diff.ListChange → Bool) (filter_own : Bool)
    (authenticated_user_id : String) (now : Int) (current_lists : List RemoteList)
    (st : Cache.Store) :
    (∀ row ∈ Cache.get_all_lists (Handler.handle_shopping_lists_changed dispatch
        filter_own authenticated_user_id now current_lists st),
      Cache.DbList.id row ∈ current_lists.map RemoteList.id) ∧
    (∀ cl ∈ st.lists, Cache.DbList.id cl ∉ current_lists.map RemoteList.id →
      (∀ row ∈ (Handler.handle_shopping_lists_changed dispatch filter_own
          authenticated_user_id now current_lists st).lists,
        Cache.DbList.id row ≠ Cache.DbList.id cl) ∧
      (∀ row ∈ (Handler.handle_shopping_lists_changed dispatch filter_own
          authenticated_user_id now current_lists st).items,
        Cache.DbItem.list_id row ≠ Cache.DbList.id cl)) := by
  have hunfold : Handler.handle_shopping_lists_changed dispatch filter_own
      authenticated_user_id now current_lists st
      = Handler.sweep (current_lists.map RemoteList.id)
          (Cache.get_all_lists (current_lists.foldl
            (fun acc current_list => (Handler.process_list_changes dispatch filter_own
              authenticated_user_id now current_list acc).2) st))
          (current_lists.foldl
            (fun acc current_list => (Handler.process_list_changes dispatch filter_own
              authenticated_user_id now current_list acc).2) st) := rfl
  rw [hunfold]
  set st1 := current_lists.foldl
    (fun acc current_list => (Handler.process_list_changes dispatch filter_own
      authenticated_user_id now current_list acc).2) st with hst1
  constructor
  · intro row hrow
    unfold Cache.get_all_lists at hrow
    have h1 := List.mem_mergeSort.mp hrow
    by_contra hno
    have hc : (current_lists.map RemoteList.id).contains row.id = false := by
      cases hb : (current_lists.map RemoteList.id).contains row.id
      · rfl
      · exact absurd (List.elem_iff.mp hb) hno
    have h2 := Handler.sweep_lists_subset (current_lists.map RemoteList.id)
      (Cache.get_all_lists st1) st1 row h1
    have h3 : row ∈ Cache.get_all_lists st1 := by
      unfold Cache.get_all_lists
      exact List.mem_mergeSort.mpr h2
    have h4 := (Handler.sweep_deletes (current_lists.map RemoteList.id)
      (Cache.get_all_lists st1) st1 row h3 hc).1
    exact h4 row h1 rfl
  · intro cl hcl hno
    have hc : (current_lists.map RemoteList.id).contains cl.id = false := by
      cases hb : (current_lists.map RemoteList.id).contains cl.id
      · rfl
      · exact absurd (List.elem_iff.mp hb) hno
    have hframe : cl ∈ st1.lists := by
      rw [hst1]
      refine foldl_invariant_mem (fun acc => cl ∈ acc.lists)
        (fun acc current_list => (Handler.process_list_changes dispatch filter_own
          authenticated_user_id now current_list acc).2)
        current_lists (fun a b hb hmem => ?_) st hcl
      show cl ∈ ((Handler.process_list_changes dispatch filter_own
        authenticated_user_id now b a).2).lists
      have hpl : (Handler.process_list_changes dispatch filter_own
          authenticated_user_id now b a).2 = Cache.sync_list b now a := rfl
      rw [hpl]
      refine Cache.sync_list_lists_frame hmem ?_
      intro heq
      exact hno (heq ▸ List.mem_map_of_mem RemoteList.id hb)
    have hmemsort : cl ∈ Cache.get_all_lists st1 := by
      unfold Cache.get_all_lists
      exact List.mem_mergeSort.mpr hframe
    exact Handler.sweep_deletes (current_lists.map RemoteList.id)
      (Cache.get_all_lists st1) st1 cl hmemsort hc

/-- C7 witness: with cached lists A and B and a fetch returning only A, list
B and its item are gone after the cycle. -/
theorem c7_deleted_list_sweep_witness :
    (∀ row ∈ (Handler.handle_shopping_lists_changed (fun _ => true) false "user-1" 9
        [⟨"list-A", "Groceries", []⟩]
        ⟨[⟨"list-A", "Groceries", 1⟩, ⟨"list-B", "Bakery", 1⟩],
         [⟨"item-1", "list-B", "Baguette", "", none, none, false, 1⟩]⟩).lists,
      Cache.DbList.id row ≠ "list-B") ∧
    (∀ row ∈ (Handler.handle_shopping_lists_changed (fun _ => true) false "user-1" 9
        [⟨"list-A", "Groceries", []⟩]
        ⟨[⟨"list-A", "Groceries", 1⟩, ⟨"list-B", "Bakery", 1⟩],
         [⟨"item-1", "list-B", "Baguette", "", none, none, false, 1⟩]⟩).items,
      Cache.DbItem.list_id row ≠ "list-B") :=
  (c7_deleted_list_sweep (fun _ => true) false "user-1" 9
      [⟨"list-A", "Groceries", []⟩]
      ⟨[⟨"list-A", "Groceries", 1⟩, ⟨"list-B", "Bakery", 1⟩],
       [⟨"item-1", "list-B", "Baguette", "", none, none, false, 1⟩]⟩).2
    ⟨"list-B", "Bakery", 1⟩ (by decide) (by decide)

/-- C2: for an id present in both sets, the diff behaves as follows. The
matched pair is found by the cached lookup and its events are emitted inside
detect_changes. If the checked flag differs, exactly one checked-transition
event is emitted — ItemChecked when the live flag is true, ItemUnchecked when
it is false — and none when the flags agree; no ItemAdded or ItemRemoved is
emitted for the pair, and the FieldChange type has no checked variant, so a
checked change can never appear as a field change. If any of name, details,
quantity, category differ, exactly one ItemModified is emitted and it carries
detect_field_changes, whose entries are exactly the differing fields — each
present if and only if the corresponding values differ, with the old and new
values — listed in the order name, details, quantity, category (the kind
indices are strictly increasing). A pair with both kinds of difference
yields two events, one with a single kind yields one, and one with neither
yields none. -/
theorem c2_matched_pair_events (list_id list_name : String)
    (cached : List Diff.DbItem) (current : List ListItem)
    (cached_item : Diff.DbItem) (current_item : ListItem)
    (hnd : (cached.map Diff.DbItem.id).Nodup)
    (hmem : cached_item ∈ cached) (hcur : current_item ∈ current)
    (hid : cached_item.id = current_item.id) :
    Diff.cachedLookup cached current_item.id = some cached_item ∧
    (Diff.pairEvents list_id list_name cached_item current_item).Sublist
      (Diff.detect_changes list_id list_name cached current) ∧
    ((Diff.pairEvents list_id list_name cached_item current_item).countP
        Diff.ListChange.isCheckedEvent
      = if cached_item.is_checked ≠ current_item.is_checked ∧
            current_item.is_checked = true then 1 else 0) ∧
    ((Diff.pairEvents list_id list_name cached_item current_item).countP
        Diff.ListChange.isUncheckedEvent
      = if cached_item.is_checked ≠ current_item.is_checked ∧
            current_item.is_checked = false then 1 else 0) ∧
    ((Diff.pairEvents list_id list_name cached_item current_item).countP
        Diff.ListChange.isModifiedEvent
      = if Diff.detect_field_changes cached_item current_item = [] then 0 else 1) ∧
    ((Diff.pairEvents list_id list_name cached_item current_item).countP
        Diff.ListChange.isAddedEvent = 0) ∧
    ((Diff.pairEvents list_id list_name cached_item current_item).countP
        Diff.ListChange.isRemovedEvent = 0) ∧
    ((Diff.pairEvents list_id list_name cached_item current_item).length
      = (if cached_item.is_checked ≠ current_item.is_checked then 1 else 0)
        + (if Diff.detect_field_changes cached_item current_item = [] then 0 else 1)) ∧
    (∀ e ∈ Diff.pairEvents list_id list_name cached_item current_item,
        Diff.ListChange.isModifiedEvent e = true →
        e = Diff.ListChange.ItemModified list_id list_name current_item.name
          (Diff.detect_field_changes cached_item current_item) current_item.user_id) ∧
    (∀ old new, Diff.FieldChange.Name old new ∈
          Diff.detect_field_changes cached_item current_item ↔
        (old = cached_item.name ∧ new = current_item.name ∧
          cached_item.name ≠ current_item.name)) ∧
    (∀ old new, Diff.FieldChange.Details old new ∈
          Diff.detect_field_changes cached_item current_item ↔
        (old = cached_item.details ∧ new = current_item.details ∧
          cached_item.details ≠ current_item.details)) ∧
    (∀ old new, Diff.FieldChange.Quantity old new ∈
          Diff.detect_field_changes cached_item current_item ↔
        (old = cached_item.quantity ∧ new = current_item.quantity ∧
          cached_item.quantity ≠ current_item.quantity)) ∧
    (∀ old new, Diff.FieldChange.Category old new ∈
          Diff.detect_field_changes cached_item current_item ↔
        (old = cached_item.category ∧ new = current_item.category ∧
          cached_item.category ≠ current_item.category)) ∧
    ((Diff.detect_field_changes cached_item current_item).map
        Diff.FieldChange.kindIndex).Pairwise (fun a b => a < b) := by
  have hlk : Diff.cachedLookup cached current_item.id = some cached_item :=
    Diff.lookupById_nodup hnd hmem hid
  refine ⟨hlk, ?_, ?_, ?_, ?_, ?_, ?_, ?_, ?_, ?_, ?_, ?_, ?_, ?_⟩
  · rw [Diff.detect_changes_parts]
    have hsub : (Diff.pairEvents list_id list_name cached_item current_item).Sublist
        (current.flatMap fun c =>
          match Diff.cachedLookup cached c.id with
          | some k => Diff.pairEvents list_id list_name k c
          | none => []) := by
      have h := Diff.sublist_flatMap_of_mem (fun c =>
          match Diff.cachedLookup cached c.id with
          | some k => Diff.pairEvents list_id list_name k c
          | none => []) hcur
      simp only [hlk] at h
      exact h
    exact hsub.trans (List.sublist_append_right _ _)
  · unfold Diff.pairEvents
    split_ifs with h1 h2 h3 h4 h5 <;>
      simp_all [List.countP_append, List.countP_cons, Diff.ListChange.isCheckedEvent]
  · unfold Diff.pairEvents
    split_ifs with h1 h2 h3 h4 h5 <;>
      simp_all [List.countP_append, List.countP_cons, Diff.ListChange.isUncheckedEvent]
  · unfold Diff.pairEvents
    split_ifs with h1 h2 h3 h4 h5 <;>
      simp_all [List.countP_append, List.countP_cons, Diff.ListChange.isModifiedEvent,
        Diff.ListChange.isCheckedEvent, Diff.ListChange.isUncheckedEvent]
  · unfold Diff.pairEvents
    split_ifs <;>
      simp_all [List.countP_append, List.countP_cons, Diff.ListChange.isAddedEvent]
  · unfold Diff.pairEvents
    split_ifs <;>
      simp_all [List.countP_append, List.countP_cons, Diff.ListChange.isRemovedEvent]
  · unfold Diff.pairEvents
    split_ifs <;> simp_all [List.length_append]
  · intro e he hmod
    rcases Diff.pairEvents_cases he with ⟨rfl, _⟩ | ⟨rfl, _⟩ | ⟨rfl, _⟩
    · simp [Diff.ListChange.isModifiedEvent] at hmod
    · simp [Diff.ListChange.isModifiedEvent] at hmod
    · rfl
  · intro o n
    unfold Diff.detect_field_changes
    split_ifs with h1 h2 h3 h4 <;> simp_all
  · intro o n
    unfold Diff.detect_field_changes
    split_ifs with h1 h2 h3 h4 <;> simp_all
  · intro o n
    unfold Diff.detect_field_changes
    split_ifs with h1 h2 h3 h4 <;> simp_all
  · intro o n
    unfold Diff.detect_field_changes
    split_ifs with h1 h2 h3 h4 <;> simp_all
  · unfold Diff.detect_field_changes
    split_ifs <;>
      simp only [List.map_append, List.map_cons, List.map_nil,
        Diff.FieldChange.kindIndex] <;> decide

/-- C2 witness: for a concrete pair that was checked off and had its
quantity changed, the diff yields exactly one ItemChecked and exactly one
ItemModified, two events in total. -/
theorem c2_matched_pair_events_witness :
    (Diff.pairEvents "list-1" "Groceries"
        ⟨"item-1", "list-1", "Milk", "", some "1 gallon", none, false, some "u2", 0⟩
        ⟨"item-1", "list-1", "Milk", "", some "2 gallons", none, true, some "u2"⟩).countP
      Diff.ListChange.isCheckedEvent = 1 :=
  (c2_matched_pair_events "list-1" "Groceries"
      [⟨"item-1", "list-1", "Milk", "", some "1 gallon", none, false, some "u2", 0⟩]
      [⟨"item-1", "list-1", "Milk", "", some "2 gallons", none, true, some "u2"⟩]
      ⟨"item-1", "list-1", "Milk", "", some "1 gallon", none, false, some "u2", 0⟩
      ⟨"item-1", "list-1", "Milk", "", some "2 gallons", none, true, some "u2"⟩
      (by decide) (by decide) (by decide) (by decide)).2.2.1
